import Mathlib

/-!
Shallow embedding of the code-generation core of the loopy compiler
(src/loopy/codegen/__init__.py), together with proofs about the claims of
its natural-language specification.

Conventions of the embedding:
* Python exceptions are modelled by the `Except PyExc` monad.
* The external polyhedral library (islpy) is treated as the spec treats it:
  an opaque constraint-set capability.  A set is a list of named dimensions
  together with a list of equality constraints `iname == aff`; an affine
  expression is kept at the granularity at which this module constructs it
  (integer constants).
* Python dicts are modelled by association lists in insertion order.
* Collaborators of this module that live in other files of the repository
  which were not provided (loopy.translation_unit, loopy.codegen.result,
  loopy.kernel.KernelState, the pytools persistent cache) are modelled from
  the spec; each such definition carries a doc comment saying so.
-/

namespace Loopy

/-- An affine expression of the external polyhedral library (isl.Aff).
This module only ever constructs constant affine expressions
(`Aff.zero_on_domain(...) + i` in `unvectorize`), so the model keeps the
constant part only. -/
structure Aff where
  const : Int
deriving DecidableEq, Repr

/-- A symbolic (pymbolic) expression, at the granularity this module
produces them: `pw_aff_to_expr` applied to a constant affine expression. -/
inductive Expr where
  | intConst : Int → Expr
deriving DecidableEq, Repr

/-- Modelled from the spec: `loopy.symbolic.pw_aff_to_expr` (not among the
provided sources) converts an affine expression to a symbolic expression. -/
def pw_aff_to_expr (a : Aff) : Expr :=
  Expr.intConst a.const

/-- A polyhedral set of the external library (islpy.Set), modelled as the
opaque constraint-set capability the spec describes: named set dimensions
plus equality constraints `iname == aff`. -/
structure ISLSet where
  dims : List String
  constraints : List (String × Aff)
deriving DecidableEq, Repr

/-- Python dict update semantics (`constantdict.set`): replace the value in
place if the key is present, otherwise append the new binding. -/
def setVar (m : List (String × Expr)) (k : String) (v : Expr) :
    List (String × Expr) :=
  if (m.lookup k).isSome then
    m.map (fun p => if p.1 = k then (k, v) else p)
  else
    m ++ [(k, v)]

/-- A backend AST builder, opaque to this module (only its identity
matters here). -/
structure AstBuilder where
  id : Nat
deriving DecidableEq, Repr

/-- The selected backend descriptor (loopy.target.TargetBase): the facet
used by this module. -/
structure Target where
  device_ast_builder : AstBuilder
  host_ast_builder : AstBuilder
  host_program_name_head : String
  host_program_name_suffix : String
deriving DecidableEq, Repr

def Target.get_device_ast_builder (t : Target) : AstBuilder :=
  t.device_ast_builder

def Target.get_host_ast_builder (t : Target) : AstBuilder :=
  t.host_ast_builder

/-- Modelled from the spec: `loopy.kernel.KernelState` (not among the
provided sources) — the kernel lifecycle enum, initial < preprocessed <
linearized. -/
inductive KernelState where
  | INITIAL
  | PREPROCESSED
  | LINEARIZED
deriving DecidableEq, Repr

/-- A data type declared for an argument or temporary (loopy.types), at the
granularity this module consults it (`involves_complex`). -/
structure LoopyType where
  involves_complex : Bool
deriving DecidableEq, Repr

/-- An argument or temporary variable of a kernel: this module reads only
its declared dtype. -/
structure KernelArg where
  dtype : LoopyType
deriving DecidableEq, Repr

/-- The facet of loopy.LoopKernel consumed by this module. -/
structure LoopKernel where
  name : String
  state : KernelState
  target : Target
  assumptions : ISLSet
  args : List KernelArg
  temporary_variables : List KernelArg
  linearization : List Nat
deriving DecidableEq, Repr

/-- The callee-relevant view of a kernel body that entrypoint/callee
divergence manipulates: its name and its resolved call-site references. -/
structure CalleeKernelBody where
  name : String
  callees : List String
deriving DecidableEq, Repr

/-- loopy.kernel.function_interface.InKernelCallable: either a kernel
callable or an opaque (scalar/library) callable. -/
inductive InKernelCallable where
  | callableKernel (subkernel : CalleeKernelBody)
  | scalarCallable (tag : Nat)
deriving DecidableEq, Repr

/-- `isinstance(clbl, CallableKernel)` -/
def InKernelCallable.isKernel : InKernelCallable → Bool
  | InKernelCallable.callableKernel _ => true
  | InKernelCallable.scalarCallable _ => false

/-- loopy.codegen.SeenFunction. -/
structure SeenFunction where
  name : String
  c_name : String
  arg_dtypes : List LoopyType
  result_dtypes : List LoopyType
deriving DecidableEq, Repr

/-- loopy.codegen.VectorizationInfo. -/
structure VectorizationInfo where
  iname : String
  length : Nat
deriving DecidableEq, Repr

/-- loopy.codegen.CodeGenerationState, with the same fields as the source
dataclass; external field types are modelled at the granularity this
module uses them. -/
structure CodeGenerationState where
  kernel : LoopKernel
  target : Target
  implemented_domain : ISLSet
  implemented_predicates : List Expr
  seen_dtypes : List LoopyType
  seen_functions : List SeenFunction
  seen_atomic_dtypes : List LoopyType
  var_subst_map : List (String × Expr)
  allow_complex : Bool
  callables_table : List (String × InKernelCallable)
  is_entrypoint : Bool
  var_name_generator : Nat
  is_generating_device_code : Bool
  gen_program_name : String
  schedule_index_end : Nat
  codegen_cache_manager : Nat
  vectorization_info : Option VectorizationInfo := none
deriving DecidableEq, Repr

/-- `CodeGenerationState.copy_and_assign`: copy of self with variable
*name* fixed to *value* in the substitution map. -/
def CodeGenerationState.copy_and_assign (s : CodeGenerationState)
    (name : String) (value : Expr) : CodeGenerationState :=
  { s with var_subst_map := setVar s.var_subst_map name value }

/-- `CodeGenerationState.fix`: extend the implemented domain by dimension
`iname` if absent, add the equality constraint `iname == aff`, and bind
`iname` to the (constant) expression of `aff` in the substitution map. -/
def CodeGenerationState.fix (s : CodeGenerationState) (iname : String)
    (aff : Aff) : CodeGenerationState :=
  let new_impl_domain := s.implemented_domain
  let new_impl_domain :=
    if iname ∈ new_impl_domain.dims then new_impl_domain
    else { new_impl_domain with dims := new_impl_domain.dims ++ [iname] }
  let cns : String × Aff := (iname, aff)
  let expr := pw_aff_to_expr aff
  let new_impl_domain :=
    { new_impl_domain with constraints := new_impl_domain.constraints ++ [cns] }
  { s.copy_and_assign iname expr with implemented_domain := new_impl_domain }

/-- `CodeGenerationState.ast_builder`: note that the source resolves the
builder through `self.kernel.target`, not through the state's own `target`
field. -/
def CodeGenerationState.ast_builder (s : CodeGenerationState) : AstBuilder :=
  if s.is_generating_device_code then
    s.kernel.target.get_device_ast_builder
  else
    s.kernel.target.get_host_ast_builder

/-- The Python exceptions this module can raise or observe. -/
inductive PyExc where
  | unvectorizableError (msg : String)
  | loopyError (msg : String)
  | assertionError
  | indexError
  | attributeError
deriving DecidableEq, Repr

/-- A per-kernel code-generation result (loopy.codegen.result), opaque to
this module except for merging. -/
inductive CGResult where
  | atom (n : Nat)
  | mergedOf (rs : List CGResult)

/-- Modelled from the spec: `merge_codegen_results` of loopy.codegen.result
(not among the provided sources) merges the retained fragments, in order,
into one combined emission result. -/
def mergeCodegenResults (_s : CodeGenerationState) (rs : List CGResult) :
    CGResult :=
  CGResult.mergedOf rs

/-- The dynamic result of one call to an emission function: Python's
`CodeGenerationResult | None`, where the caller additionally distinguishes
list results (`isinstance(generated, list)`). -/
inductive Generated where
  | noneResult
  | one (r : CGResult)
  | many (rs : List CGResult)

/-- The fragments a single emission call contributes in `unvectorize`:
a None result is dropped, a list contributes all its elements, any other
result contributes itself. -/
def retainedFragments : Generated → List CGResult
  | Generated.noneResult => []
  | Generated.one r => [r]
  | Generated.many rs => rs

/-- The per-lane loop body of `CodeGenerationState.unvectorize`, iterating
over the given lane indices in order.  Each lane derives its context from
`novec` (the state with `vectorization_info` cleared) by fixing the
vectorized iname to the constant lane index; a raised exception aborts the
loop and propagates. -/
def unvectorizeLoop (func : CodeGenerationState → Except PyExc Generated)
    (novec : CodeGenerationState) (iname : String) :
    List Nat → Except PyExc (List CGResult)
  | [] => Except.ok []
  | i :: rest =>
      let idx_aff : Aff := ⟨(i : Int)⟩
      let new_codegen_state := novec.fix iname idx_aff
      match func new_codegen_state with
      | Except.error e => Except.error e
      | Except.ok generated =>
          match unvectorizeLoop func novec iname rest with
          | Except.error e => Except.error e
          | Except.ok tail =>
              match generated with
              | Generated.many rs => Except.ok (rs ++ tail)
              | Generated.noneResult => Except.ok tail
              | Generated.one r => Except.ok (r :: tail)

/-- `CodeGenerationState.unvectorize`: unroll the vectorized loop into
per-lane emissions and merge the collected fragments.  The source asserts
`vectorization_info is not None`. -/
def CodeGenerationState.unvectorize (s : CodeGenerationState)
    (func : CodeGenerationState → Except PyExc Generated) :
    Except PyExc CGResult :=
  match s.vectorization_info with
  | none => Except.error PyExc.assertionError
  | some vinf =>
      let novec := { s with vectorization_info := none }
      match unvectorizeLoop func novec vinf.iname (List.range vinf.length) with
      | Except.error e => Except.error e
      | Except.ok result => Except.ok (mergeCodegenResults s result)

/-- The dynamic result of `try_vectorized`: either whatever `func`
returned directly, or the merged result of the unrolling fallback. -/
inductive TryVecOut where
  | direct (g : Generated)
  | fallback (r : CGResult)

/-- The text of the `vectorize_failed` warning issued by
`try_vectorized`. -/
def vectorizeFailedWarning (what msg : String) : String :=
  "Vectorization of '" ++ what ++ "' failed because '" ++ msg ++ "'"

/-- `CodeGenerationState.try_vectorized`: when not in a vectorizing state,
call `func` directly (no handler installed); when in a vectorizing state,
call `func` and catch exactly `UnvectorizableError`, converting it into a
warning plus the `unvectorize` fallback.  The first component collects the
warnings issued. -/
def CodeGenerationState.try_vectorized (s : CodeGenerationState)
    (what : String) (func : CodeGenerationState → Except PyExc Generated) :
    List String × Except PyExc TryVecOut :=
  match s.vectorization_info with
  | none => ([], (func s).map TryVecOut.direct)
  | some _ =>
      match func s with
      | Except.ok g => ([], Except.ok (TryVecOut.direct g))
      | Except.error (PyExc.unvectorizableError m) =>
          ([vectorizeFailedWarning what m],
            (s.unvectorize func).map TryVecOut.fallback)
      | Except.error e => ([], Except.error e)

/-- The whole translation unit, at the granularity this module consumes
it: its callables table (a dict, modelled as an association list in
insertion order), its declared entrypoints, and its target. -/
structure TranslationUnit where
  callables_table : List (String × InKernelCallable)
  entrypoints : List String
  target : Target
deriving DecidableEq, Repr

/-- Modelled from the spec: `rename_resolved_functions_in_a_single_kernel`
of loopy.translation_unit (not among the provided sources) rewrites every
internal call-site reference of a kernel body using the rename table. -/
def rename_resolved_functions_in_a_single_kernel (k : CalleeKernelBody)
    (todo_renames : List (String × String)) : CalleeKernelBody :=
  { k with callees := k.callees.map (fun c => (todo_renames.lookup c).getD c) }

/-- One step of callee reachability: the resolved call-site references of
the kernel bodies named by `roots`. -/
def directCallees (table : List (String × InKernelCallable))
    (roots : List String) : List String :=
  roots.flatMap (fun r =>
    match table.lookup r with
    | some (InKernelCallable.callableKernel sub) => sub.callees
    | _ => [])

/-- Fuel-bounded transitive closure of `directCallees`. -/
def reachableFrom (table : List (String × InKernelCallable)) :
    Nat → List String → List String
  | 0, _ => []
  | fuel + 1, roots =>
      let direct := directCallees table roots
      (direct ++ reachableFrom table fuel direct).dedup

/-- Modelled from the spec: `get_reachable_resolved_callable_ids` of
loopy.translation_unit (not among the provided sources) — the set of
resolved callable ids reachable as callees from the declared
entrypoints. -/
def get_reachable_resolved_callable_ids
    (table : List (String × InKernelCallable))
    (entrypoints : List String) : List String :=
  reachableFrom table (table.length + 1) entrypoints

/-- `diverge_callee_entrypoints` from the source: for every callable id
that is both reachable as a callee and an entrypoint, record a fresh name
(produced by the name generator `vng`, which models
`make_callable_name_generator`, not among the provided sources), then
rebuild the callables table: the binding name is replaced by its fresh
name when renamed, and every kernel body has its call sites rewritten via
the rename table and its own name set to its binding name.
`callable_ids` is the reachable-callee-id set, passed explicitly. -/
def diverge_callee_entrypoints (t_unit : TranslationUnit)
    (callable_ids : List String) (vng : String → String) : TranslationUnit :=
  let todo_renames : List (String × String) :=
    (callable_ids.filter (fun i => i ∈ t_unit.entrypoints)).map
      (fun i => (i, vng i))
  let new_callables := t_unit.callables_table.map (fun p =>
    let name := (todo_renames.lookup p.1).getD p.1
    match p.2 with
    | InKernelCallable.callableKernel sub =>
        let knl := rename_resolved_functions_in_a_single_kernel sub todo_renames
        (name, InKernelCallable.callableKernel { knl with name := name })
    | c => (name, c))
  { t_unit with callables_table := new_callables }

/-- A backend AST fragment, at the granularity this module manipulates it:
a generated function (whose `fdecl` attribute is its forward declaration),
a bare forward declaration, or the `Collection` container the orchestrator
builds when splicing forward declarations. -/
inductive Ast where
  | node (fdecl : String) (body : String)
  | fdeclNode (f : String)
  | collection (children : List Ast)

/-- The `.fdecl` attribute access on an AST: present on a generated
function node, absent (an `AttributeError` in Python) otherwise. -/
def Ast.fdeclAttr : Ast → Option Ast
  | Ast.node f _ => some (Ast.fdeclNode f)
  | _ => none

/-- loopy.codegen.result.GeneratedProgram, at the granularity used here:
its name and its AST. -/
structure GeneratedProgram where
  name : String
  ast : Ast

/-- The facet of a per-kernel CodeGenerationResult the orchestrator
consumes: the host program, the device programs and the collected device
preambles. -/
structure SingleKernelCGResult where
  host_program : GeneratedProgram
  device_programs : List GeneratedProgram
  device_preambles : List (Int × String)

/-- loopy.codegen.TranslationUnitCodeGenerationResult. -/
structure TranslationUnitCodeGenerationResult where
  host_programs : List (String × GeneratedProgram)
  device_programs : List GeneratedProgram
  host_preambles : List (Int × String) := []
  device_preambles : List (Int × String) := []

/-- Keep only the first occurrence of each preamble text, in order. -/
def dedupTexts (seen : List String) : List (Int × String) → List String
  | [] => []
  | (_, t) :: rest =>
      if t ∈ seen then dedupTexts seen rest
      else t :: dedupTexts (t :: seen) rest

/-- Modelled from the spec: `process_preambles` of loopy.codegen.result
(not among the provided sources) renders `(priority, text)` preamble pairs:
stably ordered by priority (then discovery order) and de-duplicated by
literal text. -/
def process_preambles (preambles : List (Int × String)) : List String :=
  dedupTexts [] (preambles.mergeSort (fun a b => a.1 ≤ b.1))

/-- `TranslationUnitCodeGenerationResult.all_code` from the source.  The
rendering `str(...)` of a backend AST is external; it is passed in as
`strAst`. -/
def TranslationUnitCodeGenerationResult.all_code
    (r : TranslationUnitCodeGenerationResult) (strAst : Ast → String) :
    String :=
  let preamble_codes := process_preambles (r.host_preambles ++ r.device_preambles)
  String.join preamble_codes
    ++ "\n"
    ++ String.intercalate "\n\n" (r.device_programs.map (fun dp => strAst dp.ast))
    ++ "\n\n"
    ++ String.intercalate "\n\n"
        ((r.host_programs.map Prod.snd).map (fun hp => strAst hp.ast))

/-- The rendering the spec describes for `all_code`: the de-duplicated,
priority-ordered preamble text (host preambles followed by device
preambles), then the device program bodies joined in list order, then the
host program bodies — device programs preceding host programs. -/
def specAllCode (r : TranslationUnitCodeGenerationResult)
    (strAst : Ast → String) : String :=
  let preamblePart :=
    String.join (process_preambles (r.host_preambles ++ r.device_preambles))
  let devicePart :=
    String.intercalate "\n\n" (r.device_programs.map (fun dp => strAst dp.ast))
  let hostPart :=
    String.intercalate "\n\n"
      ((r.host_programs.map Prod.snd).map (fun hp => strAst hp.ast))
  preamblePart ++ ("\n" ++ (devicePart ++ ("\n\n" ++ hostPart)))

/-- The initial `CodeGenerationState` constructed by
`generate_code_for_a_single_kernel`: implemented domain from the kernel's
assumptions, empty predicate set, substitution map and collector sets,
host-side emission, generated program name assembled from the target's
host program name affixes, and schedule index end equal to the
linearization length.  (In the source the name joins
`target.host_program_name_prefix`, the kernel name and
`kernel.target.host_program_name_suffix`; the first affix is the field
called `host_program_name_head` here.) -/
def initial_codegen_state (kernel : LoopKernel)
    (callables_table : List (String × InKernelCallable))
    (target : Target) (is_entrypoint : Bool) (allow_complex : Bool) :
    CodeGenerationState :=
  { kernel := kernel
    target := target
    implemented_domain := kernel.assumptions
    implemented_predicates := []
    seen_dtypes := []
    seen_functions := []
    seen_atomic_dtypes := []
    var_subst_map := []
    allow_complex := allow_complex
    callables_table := callables_table
    is_entrypoint := is_entrypoint
    var_name_generator := 0
    is_generating_device_code := false
    gen_program_name :=
      target.host_program_name_head ++ kernel.name
        ++ kernel.target.host_program_name_suffix
    schedule_index_end := kernel.linearization.length
    codegen_cache_manager := 0
    vectorization_info := none }

/-- `generate_code_for_a_single_kernel` from the source: the scheduling
precondition check, the complex-arithmetic scan over arguments and
temporaries, and the construction of the initial state.  The recursive
emission, the implemented-domain consistency assertion and the preamble
machinery delegate to external collaborators
(loopy.codegen.result.generate_host_or_device_program and the preamble
generators); they are abstracted into `emitProgram`. -/
def generate_code_for_a_single_kernel (kernel : LoopKernel)
    (callables_table : List (String × InKernelCallable))
    (target : Target) (is_entrypoint : Bool)
    (emitProgram : CodeGenerationState → CGResult) :
    Except PyExc CGResult :=
  if kernel.state ≠ KernelState.LINEARIZED then
    Except.error (PyExc.loopyError
      "cannot generate code for a kernel that has not been scheduled")
  else
    let allow_complex := (kernel.args ++ kernel.temporary_variables).any
      (fun var => var.dtype.involves_complex)
    Except.ok (emitProgram
      (initial_codegen_state kernel callables_table target is_entrypoint
        allow_complex))

/-- The sorted kernel-callable ids the orchestrator iterates over:
`sorted(key for key, val in callables_table.items() if
isinstance(val, CallableKernel))`. -/
def kernelIdsSorted (table : List (String × InKernelCallable)) :
    List String :=
  List.insertionSort (fun a b => a ≤ b)
    ((table.filter (fun p => p.2.isKernel)).map Prod.fst)

/-- The per-iteration accumulator of the orchestrator's collection loop:
host programs, device programs, callee forward declarations, and device
preambles, each in collection order. -/
structure CollectAcc where
  host_programs : List (String × GeneratedProgram)
  device_programs : List GeneratedProgram
  callee_fdecls : List Ast
  device_preambles : List (Int × String)

/-- The collect-host/device-programs loop of `generate_code_v2`, iterating
over the given callable ids in order.  An entrypoint contributes its host
program; a non-entrypoint must have produced exactly one device program
(`assert len(cgr.device_programs) == 1`), whose AST's `fdecl` attribute is
prepended to the callee forward declarations.  Every callable contributes
its device programs and device preambles. -/
def collectPrograms (entrypoints : List String)
    (cgrOf : String → SingleKernelCGResult) :
    List String → Except PyExc CollectAcc
  | [] => Except.ok ⟨[], [], [], []⟩
  | func_id :: rest =>
      let cgr := cgrOf func_id
      if func_id ∈ entrypoints then
        match collectPrograms entrypoints cgrOf rest with
        | Except.error e => Except.error e
        | Except.ok acc =>
            Except.ok ⟨(func_id, cgr.host_program) :: acc.host_programs,
              cgr.device_programs ++ acc.device_programs,
              acc.callee_fdecls,
              cgr.device_preambles ++ acc.device_preambles⟩
      else
        if cgr.device_programs.length = 1 then
          match cgr.device_programs.head? with
          | none => Except.error PyExc.indexError
          | some p =>
              match p.ast.fdeclAttr with
              | none => Except.error PyExc.attributeError
              | some fd =>
                  match collectPrograms entrypoints cgrOf rest with
                  | Except.error e => Except.error e
                  | Except.ok acc =>
                      Except.ok ⟨acc.host_programs,
                        cgr.device_programs ++ acc.device_programs,
                        fd :: acc.callee_fdecls,
                        cgr.device_preambles ++ acc.device_preambles⟩
        else Except.error PyExc.assertionError

/-- The forward-declaration splicing step of `generate_code_v2`: rewrite
the first collected device program, wrapping its AST in a `Collection`
holding the callee forward declarations followed by the original AST, and
leave the remaining device programs untouched.  The source accesses
`device_programs[0]` unconditionally, an `IndexError` on an empty list. -/
def splice_callee_fdecls (device_programs : List GeneratedProgram)
    (callee_fdecls : List Ast) : Except PyExc (List GeneratedProgram) :=
  match device_programs with
  | [] => Except.error PyExc.indexError
  | dp0 :: rest =>
      Except.ok ({ dp0 with
        ast := Ast.collection (callee_fdecls ++ [dp0.ast]) } :: rest)

/-- The post-cache portion of `generate_code_v2` relevant to program
collection and assembly: collect per-kernel results in sorted-id order,
extend the device preambles with every callable's own preambles
(`clbl.generate_preambles(target)`, abstracted as `genPre`), splice the
callee forward declarations into the first device program, and assemble
the unit-level result. -/
def generate_code_v2_assemble (t_unit : TranslationUnit)
    (cgrOf : String → SingleKernelCGResult)
    (genPre : InKernelCallable → List (Int × String)) :
    Except PyExc TranslationUnitCodeGenerationResult :=
  match collectPrograms t_unit.entrypoints cgrOf
      (kernelIdsSorted t_unit.callables_table) with
  | Except.error e => Except.error e
  | Except.ok acc =>
      let device_preambles := acc.device_preambles
        ++ (t_unit.callables_table.map (fun p => genPre p.2)).flatten
      match splice_callee_fdecls acc.device_programs acc.callee_fdecls with
      | Except.error e => Except.error e
      | Except.ok devs =>
          Except.ok { host_programs := acc.host_programs
                      device_programs := devs
                      host_preambles := []
                      device_preambles := device_preambles }

/-- Modelled from the spec: the persistent code-generation cache
(pytools.persistent_dict.WriteOncePersistentDict, external) — a key→value
store keyed by the whole translation unit. -/
abbrev Cache := List (TranslationUnit × TranslationUnitCodeGenerationResult)

/-- Cache lookup by key. -/
def cacheGet (c : Cache) (u : TranslationUnit) :
    Option TranslationUnitCodeGenerationResult :=
  match c with
  | [] => none
  | (k, v) :: rest => if k = u then some v else cacheGet rest u

/-- Modelled from the spec: `store_if_not_present` of the write-once
cache — store only when no entry exists for the key, never overwriting. -/
def store_if_not_present (c : Cache) (u : TranslationUnit)
    (r : TranslationUnitCodeGenerationResult) : Cache :=
  if (cacheGet c u).isSome then c else c ++ [(u, r)]

/-- The caching wrapper of `generate_code_v2` (with `CACHING_ENABLED`):
look the input translation unit up in the cache and return the cached
result on a hit; on a miss run the pipeline body (preprocessing, type
inference, linearization, divergence, per-kernel code generation and
assembly, abstracted as `body`) and store its result under the input unit
with store-if-not-present semantics.  The boolean records whether the
pipeline body ran. -/
def generate_code_v2_cached
    (body : TranslationUnit → TranslationUnitCodeGenerationResult)
    (cache : Cache) (t_unit : TranslationUnit) :
    TranslationUnitCodeGenerationResult × Cache × Bool :=
  match cacheGet cache t_unit with
  | some result => (result, cache, false)
  | none =>
      let cgr := body t_unit
      (cgr, store_if_not_present cache t_unit cgr, true)

/-! Concrete fixture values used by counterexamples and witnesses. -/

def targetA : Target :=
  { device_ast_builder := ⟨1⟩
    host_ast_builder := ⟨2⟩
    host_program_name_head := "host_"
    host_program_name_suffix := "_outer" }

def targetB : Target :=
  { device_ast_builder := ⟨3⟩
    host_ast_builder := ⟨4⟩
    host_program_name_head := "h_"
    host_program_name_suffix := "" }

def kernelA : LoopKernel :=
  { name := "loopy_kernel"
    state := KernelState.LINEARIZED
    target := targetB
    assumptions := ⟨["n"], [("n", ⟨3⟩)]⟩
    args := [⟨⟨false⟩⟩]
    temporary_variables := []
    linearization := [0, 1] }

/-- A scalar (non-vectorizing) code-generation state whose own `target`
field differs from its kernel's target. -/
def baseState : CodeGenerationState :=
  { kernel := kernelA
    target := targetA
    implemented_domain := ⟨["n"], [("n", ⟨3⟩)]⟩
    implemented_predicates := []
    seen_dtypes := []
    seen_functions := []
    seen_atomic_dtypes := []
    var_subst_map := [("n", Expr.intConst 3)]
    allow_complex := false
    callables_table := []
    is_entrypoint := true
    var_name_generator := 0
    is_generating_device_code := true
    gen_program_name := "host_loopy_kernel"
    schedule_index_end := 2
    codegen_cache_manager := 0
    vectorization_info := none }

/-- The same state inside a vectorized region of iname i with length 2. -/
def vecState : CodeGenerationState :=
  { baseState with vectorization_info := some ⟨"i", 2⟩ }

/-- A translation unit in which callable b is both an entrypoint and
reachable as a callee (a calls b). -/
def tunitAB : TranslationUnit :=
  { callables_table :=
      [("a", InKernelCallable.callableKernel ⟨"a", ["b"]⟩),
       ("b", InKernelCallable.callableKernel ⟨"b", []⟩)]
    entrypoints := ["a", "b"]
    target := targetA }

/-- The callable name generator used in the divergence example. -/
def vng0 : String → String := fun s => s ++ "_0"

/-- A translation unit with an empty callables table. -/
def tunitEmpty : TranslationUnit :=
  { callables_table := [], entrypoints := [], target := targetA }

/-- A callables table with kernel callables named b, a, c in that
insertion order. -/
def tableBAC : List (String × InKernelCallable) :=
  [("b", InKernelCallable.callableKernel ⟨"b", []⟩),
   ("a", InKernelCallable.callableKernel ⟨"a", []⟩),
   ("c", InKernelCallable.callableKernel ⟨"c", []⟩)]

/-- The same callables in a different insertion order. -/
def tableABC : List (String × InKernelCallable) :=
  [("a", InKernelCallable.callableKernel ⟨"a", []⟩),
   ("b", InKernelCallable.callableKernel ⟨"b", []⟩),
   ("c", InKernelCallable.callableKernel ⟨"c", []⟩)]

/-- Per-kernel results for the deterministic-assembly example: every
callable yields exactly one device program whose forward declaration is
"fd_" followed by the callable id. -/
def cgrOfBAC : String → SingleKernelCGResult := fun id =>
  { host_program := ⟨id, Ast.node "" ""⟩
    device_programs := [⟨id, Ast.node ("fd_" ++ id) "body"⟩]
    device_preambles := [] }

/-- An empty unit-level code-generation result. -/
def emptyTUResult : TranslationUnitCodeGenerationResult :=
  { host_programs := [], device_programs := [] }

/-- A distinguishable unit-level code-generation result. -/
def otherTUResult : TranslationUnitCodeGenerationResult :=
  { host_programs := []
    device_programs := [⟨"d", Ast.node "fd" "b"⟩] }

/-! Helper lemmas. -/

theorem lookup_map_replace_self (m : List (String × Expr)) (k : String)
    (v : Expr) (h : (m.lookup k).isSome) :
    (m.map (fun p => if p.1 = k then (k, v) else p)).lookup k = some v := by
  induction m with
  | nil => simp [List.lookup] at h
  | cons p rest ih =>
      obtain ⟨a, b⟩ := p
      by_cases hak : a = k
      · subst hak
        rw [List.map_cons,
          show (if ((a, b) : String × Expr).1 = a then (a, v) else (a, b))
            = (a, v) from if_pos rfl]
        simp [List.lookup]
      · have hk : (k == a) = false := beq_eq_false_iff_ne.mpr (Ne.symm hak)
        simp only [List.lookup, hk] at h
        rw [List.map_cons,
          show (if ((a, b) : String × Expr).1 = k then (k, v) else (a, b))
            = (a, b) from if_neg hak]
        simp only [List.lookup, hk]
        exact ih h

theorem lookup_map_replace_ne (m : List (String × Expr)) (k : String)
    (v : Expr) (j : String) (hj : j ≠ k) :
    (m.map (fun p => if p.1 = k then (k, v) else p)).lookup j = m.lookup j := by
  induction m with
  | nil => simp
  | cons p rest ih =>
      obtain ⟨a, b⟩ := p
      by_cases hak : a = k
      · subst hak
        have hjk : (j == a) = false := beq_eq_false_iff_ne.mpr hj
        rw [List.map_cons,
          show (if ((a, b) : String × Expr).1 = a then (a, v) else (a, b))
            = (a, v) from if_pos rfl]
        simp only [List.lookup, hjk]
        exact ih
      · rw [List.map_cons,
          show (if ((a, b) : String × Expr).1 = k then (k, v) else (a, b))
            = (a, b) from if_neg hak]
        by_cases hja : j = a
        · subst hja
          simp [List.lookup]
        · have hjab : (j == a) = false := beq_eq_false_iff_ne.mpr hja
          simp only [List.lookup, hjab]
          exact ih

theorem lookup_append_single_self (m : List (String × Expr)) (k : String)
    (v : Expr) (h : m.lookup k = none) :
    (m ++ [(k, v)]).lookup k = some v := by
  induction m with
  | nil => simp [List.lookup]
  | cons p rest ih =>
      obtain ⟨a, b⟩ := p
      by_cases hak : k = a
      · subst hak
        simp [List.lookup] at h
      · have hk : (k == a) = false := beq_eq_false_iff_ne.mpr hak
        simp only [List.lookup, hk] at h
        simp only [List.cons_append, List.lookup, hk]
        exact ih h

theorem lookup_append_single_ne (m : List (String × Expr)) (k : String)
    (v : Expr) (j : String) (hj : j ≠ k) :
    (m ++ [(k, v)]).lookup j = m.lookup j := by
  induction m with
  | nil =>
      have hjk : (j == k) = false := beq_eq_false_iff_ne.mpr hj
      simp [List.lookup, hjk]
  | cons p rest ih =>
      obtain ⟨a, b⟩ := p
      simp only [List.cons_append, List.lookup]
      by_cases hja : j = a
      · subst hja
        simp
      · have hjab : (j == a) = false := beq_eq_false_iff_ne.mpr hja
        simp only [hjab]
        exact ih

theorem cacheGet_append_of_none (c : Cache) (l : Cache)
    (u : TranslationUnit) (h : cacheGet c u = none) :
    cacheGet (c ++ l) u = cacheGet l u := by
  induction c with
  | nil => rfl
  | cons p rest ih =>
      obtain ⟨k, v⟩ := p
      by_cases hk : k = u
      · simp [cacheGet, hk] at h
      · simp only [cacheGet, if_neg hk] at h
        rw [List.cons_append]
        simp only [cacheGet, if_neg hk]
        exact ih h

theorem cacheGet_append_of_some (c : Cache) (l : Cache)
    (u : TranslationUnit) (v : TranslationUnitCodeGenerationResult)
    (h : cacheGet c u = some v) :
    cacheGet (c ++ l) u = some v := by
  induction c with
  | nil => simp [cacheGet] at h
  | cons p rest ih =>
      obtain ⟨k, w⟩ := p
      by_cases hk : k = u
      · simp only [cacheGet, if_pos hk] at h
        rw [List.cons_append]
        simp only [cacheGet, if_pos hk]
        exact h
      · simp only [cacheGet, if_neg hk] at h
        rw [List.cons_append]
        simp only [cacheGet, if_neg hk]
        exact ih h

theorem unvectorizeLoop_ok (func : CodeGenerationState → Except PyExc Generated)
    (novec : CodeGenerationState) (iname : String) (g : Nat → Generated) :
    ∀ l : List Nat,
      (∀ i ∈ l, func (novec.fix iname ⟨(i : Int)⟩) = Except.ok (g i)) →
      unvectorizeLoop func novec iname l
        = Except.ok ((l.map (fun i => retainedFragments (g i))).flatten) := by
  intro l
  induction l with
  | nil => intro _; rfl
  | cons i rest ih =>
      intro h
      have hi := h i (List.mem_cons_self i rest)
      have hrest := ih (fun j hj => h j (List.mem_cons_of_mem i hj))
      simp only [unvectorizeLoop, hi, hrest]
      cases hgi : g i with
      | noneResult =>
          simp [retainedFragments, hgi, List.map_cons, List.flatten_cons]
      | one r =>
          simp [retainedFragments, hgi, List.map_cons, List.flatten_cons]
      | many rs =>
          simp [retainedFragments, hgi, List.map_cons, List.flatten_cons]

theorem collectPrograms_ok_length_one (entrypoints : List String)
    (cgrOf : String → SingleKernelCGResult) :
    ∀ (ids : List String) (acc : CollectAcc),
      collectPrograms entrypoints cgrOf ids = Except.ok acc →
      ∀ id ∈ ids, id ∉ entrypoints →
        ((cgrOf id).device_programs.length = 1) := by
  intro ids
  induction ids with
  | nil => intro acc _ id hid; simp at hid
  | cons i rest ih =>
      intro acc hok id hid hne
      rcases List.mem_cons.mp hid with hq | hmem
      · subst hq
        simp only [collectPrograms, if_neg hne] at hok
        by_cases hlen : (cgrOf id).device_programs.length = 1
        · exact hlen
        · simp [hlen] at hok
      · simp only [collectPrograms] at hok
        by_cases hin : i ∈ entrypoints
        · rw [if_pos hin] at hok
          cases hr : collectPrograms entrypoints cgrOf rest with
          | error e => rw [hr] at hok; exact absurd hok (by simp)
          | ok acc2 => exact ih acc2 hr id hmem hne
        · rw [if_neg hin] at hok
          by_cases hlen : (cgrOf i).device_programs.length = 1
          · rw [if_pos hlen] at hok
            cases hh : (cgrOf i).device_programs.head? with
            | none => rw [hh] at hok; exact absurd hok (by simp)
            | some p =>
                rw [hh] at hok
                dsimp only at hok
                cases hf : p.ast.fdeclAttr with
                | none => rw [hf] at hok; exact absurd hok (by simp)
                | some fd =>
                    rw [hf] at hok
                    dsimp only at hok
                    cases hr : collectPrograms entrypoints cgrOf rest with
                    | error e => rw [hr] at hok; exact absurd hok (by simp)
                    | ok acc2 => exact ih acc2 hr id hmem hne
          · rw [if_neg hlen] at hok
            exact absurd hok (by simp)

theorem kernelIdsSorted_perm_invariant
    (t1 t2 : List (String × InKernelCallable)) (h : t1.Perm t2) :
    kernelIdsSorted t1 = kernelIdsSorted t2 := by
  unfold kernelIdsSorted
  have hp : ((t1.filter (fun p => p.2.isKernel)).map Prod.fst).Perm
      ((t2.filter (fun p => p.2.isKernel)).map Prod.fst) :=
    (h.filter _).map _
  exact List.eq_of_perm_of_sorted
    ((List.perm_insertionSort (fun a b : String => a ≤ b) _).trans
      (hp.trans (List.perm_insertionSort (fun a b : String => a ≤ b) _).symm))
    (List.sorted_insertionSort (fun a b : String => a ≤ b) _)
    (List.sorted_insertionSort (fun a b : String => a ≤ b) _)

theorem lookup_setVar_self (m : List (String × Expr)) (k : String) (v : Expr) :
    (setVar m k v).lookup k = some v := by
  unfold setVar
  by_cases h : (m.lookup k).isSome
  · simpa [h] using lookup_map_replace_self m k v h
  · have hn : m.lookup k = none := by
      cases hc : m.lookup k with
      | none => rfl
      | some x => simp [hc] at h
    simpa [h] using lookup_append_single_self m k v hn

theorem lookup_setVar_ne (m : List (String × Expr)) (k : String) (v : Expr)
    (j : String) (hj : j ≠ k) :
    (setVar m k v).lookup j = m.lookup j := by
  unfold setVar
  by_cases h : (m.lookup k).isSome
  · simpa [h] using lookup_map_replace_ne m k v j hj
  · simpa [h] using lookup_append_single_ne m k v j hj

/-! Claim theorems. -/

/-- Claim C4: for every code-generation state whose implemented domain
lacks a dimension named `iname`, `fix iname aff` returns a derived state
whose implemented domain has exactly one new set dimension named `iname`
(appended to the existing dimensions), constrained by the equality
`iname == aff`, with every pre-existing dimension and constraint
unchanged; its substitution map additionally binds `iname` to the
expression of `aff` while every other binding is unchanged; and all other
fields of the state are unchanged.  Instantiating `iname := "k"` and
`aff := 5` gives the claim as written. -/
theorem fix_extends_domain_and_substitution (s : CodeGenerationState)
    (iname : String) (aff : Aff) (h : iname ∉ s.implemented_domain.dims) :
    ((s.fix iname aff).implemented_domain.dims
        = s.implemented_domain.dims ++ [iname])
    ∧ ((s.fix iname aff).implemented_domain.constraints
        = s.implemented_domain.constraints ++ [(iname, aff)])
    ∧ ((s.fix iname aff).var_subst_map.lookup iname
        = some (pw_aff_to_expr aff))
    ∧ (∀ j, j ≠ iname →
        (s.fix iname aff).var_subst_map.lookup j = s.var_subst_map.lookup j)
    ∧ (s.fix iname aff).kernel = s.kernel
    ∧ (s.fix iname aff).target = s.target
    ∧ (s.fix iname aff).implemented_predicates = s.implemented_predicates
    ∧ (s.fix iname aff).seen_dtypes = s.seen_dtypes
    ∧ (s.fix iname aff).seen_functions = s.seen_functions
    ∧ (s.fix iname aff).seen_atomic_dtypes = s.seen_atomic_dtypes
    ∧ (s.fix iname aff).allow_complex = s.allow_complex
    ∧ (s.fix iname aff).callables_table = s.callables_table
    ∧ (s.fix iname aff).is_entrypoint = s.is_entrypoint
    ∧ (s.fix iname aff).var_name_generator = s.var_name_generator
    ∧ (s.fix iname aff).is_generating_device_code
        = s.is_generating_device_code
    ∧ (s.fix iname aff).gen_program_name = s.gen_program_name
    ∧ (s.fix iname aff).schedule_index_end = s.schedule_index_end
    ∧ (s.fix iname aff).codegen_cache_manager = s.codegen_cache_manager
    ∧ (s.fix iname aff).vectorization_info = s.vectorization_info := by
  have hfix : s.fix iname aff = { s with
      implemented_domain := ⟨s.implemented_domain.dims ++ [iname],
        s.implemented_domain.constraints ++ [(iname, aff)]⟩
      var_subst_map := setVar s.var_subst_map iname (pw_aff_to_expr aff) } := by
    unfold CodeGenerationState.fix CodeGenerationState.copy_and_assign
    simp only [if_neg h]
  rw [hfix]
  exact ⟨rfl, rfl,
    lookup_setVar_self s.var_subst_map iname (pw_aff_to_expr aff),
    fun j hj => lookup_setVar_ne s.var_subst_map iname (pw_aff_to_expr aff) j hj,
    rfl, rfl, rfl, rfl, rfl, rfl, rfl, rfl, rfl, rfl, rfl, rfl, rfl, rfl, rfl⟩

/-- Witness for claim C4: applying the theorem to a concrete state whose
domain has the single dimension n and fixing k to the affine constant 5. -/
theorem fix_extends_domain_and_substitution_witness :
    ("k" ∉ baseState.implemented_domain.dims)
    ∧ (baseState.fix "k" ⟨5⟩).implemented_domain.dims = ["n", "k"]
    ∧ (baseState.fix "k" ⟨5⟩).implemented_domain.constraints
        = [("n", ⟨3⟩), ("k", ⟨5⟩)]
    ∧ (baseState.fix "k" ⟨5⟩).var_subst_map.lookup "k"
        = some (Expr.intConst 5) := by
  have h : "k" ∉ baseState.implemented_domain.dims := by decide
  have hthm := fix_extends_domain_and_substitution baseState "k" ⟨5⟩ h
  refine ⟨h, ?_, ?_, ?_⟩
  · rw [hthm.1]; rfl
  · rw [hthm.2.1]; rfl
  · rw [hthm.2.2.1]; rfl

/-- Counterexample for claim C9: the claim says `ast_builder` resolves to
the builders of the state's own `target` field and depends on no other
field; but the source resolves through `self.kernel.target`, so a state
whose `target` differs from its kernel's target refutes the claim. -/
theorem C9_counterexample_ast_builder_ignores_state_target :
    baseState.is_generating_device_code = true
    ∧ baseState.ast_builder ≠ baseState.target.get_device_ast_builder
    ∧ baseState.ast_builder = baseState.kernel.target.get_device_ast_builder := by
  refine ⟨rfl, ?_, rfl⟩
  decide

/-- Claim C9 (amended): the `ast_builder` property resolves to the device
AST builder of the kernel's target when `is_generating_device_code` is
true and to its host AST builder otherwise, and the selection depends on
no field of the state other than `is_generating_device_code` and the
kernel's target. -/
theorem ast_builder_resolves_via_kernel_target (s : CodeGenerationState) :
    (s.ast_builder = if s.is_generating_device_code then
        s.kernel.target.get_device_ast_builder
      else s.kernel.target.get_host_ast_builder)
    ∧ ∀ s' : CodeGenerationState, s.kernel.target = s'.kernel.target →
        s.is_generating_device_code = s'.is_generating_device_code →
        s.ast_builder = s'.ast_builder := by
  constructor
  · rfl
  · intro s' ht hd
    unfold CodeGenerationState.ast_builder
    rw [ht, hd]

/-- Witness for claim C9 (amended): two states agreeing on the kernel's
target and the device-code flag but differing in their own `target` field
resolve to the same builder. -/
theorem ast_builder_resolves_via_kernel_target_witness :
    baseState.kernel.target
        = ({ baseState with target := targetB } :
            CodeGenerationState).kernel.target
    ∧ baseState.ast_builder
        = ({ baseState with target := targetB } :
            CodeGenerationState).ast_builder :=
  ⟨rfl, (ast_builder_resolves_via_kernel_target baseState).2
    { baseState with target := targetB } rfl rfl⟩

/-- Claim C5: `generate_code_for_a_single_kernel` fails with the
scheduling-precondition `LoopyError` if and only if the kernel's state is
not LINEARIZED; when the kernel is linearized the precondition check
passes and emission proceeds on the initial code-generation state. -/
theorem single_kernel_precondition_iff (kernel : LoopKernel)
    (callables_table : List (String × InKernelCallable)) (target : Target)
    (is_entrypoint : Bool) (emitProgram : CodeGenerationState → CGResult) :
    ((generate_code_for_a_single_kernel kernel callables_table target
        is_entrypoint emitProgram
      = Except.error (PyExc.loopyError
          "cannot generate code for a kernel that has not been scheduled"))
      ↔ kernel.state ≠ KernelState.LINEARIZED)
    ∧ (kernel.state = KernelState.LINEARIZED →
        generate_code_for_a_single_kernel kernel callables_table target
            is_entrypoint emitProgram
          = Except.ok (emitProgram
              (initial_codegen_state kernel callables_table target
                is_entrypoint
                ((kernel.args ++ kernel.temporary_variables).any
                  (fun var => var.dtype.involves_complex))))) := by
  unfold generate_code_for_a_single_kernel
  by_cases h : kernel.state = KernelState.LINEARIZED
  · constructor
    · constructor
      · intro habs
        rw [if_neg (by simp [h])] at habs
        exact absurd habs (by simp)
      · intro hne
        exact absurd h hne
    · intro _
      rw [if_neg (by simp [h])]
  · constructor
    · constructor
      · intro _
        exact h
      · intro _
        rw [if_pos h]
    · intro hlin
      exact absurd hlin h

/-- Witness for claim C5: a concrete linearized kernel passes the
precondition check and emission proceeds. -/
theorem single_kernel_precondition_iff_witness :
    kernelA.state = KernelState.LINEARIZED
    ∧ generate_code_for_a_single_kernel kernelA [] targetA true
        (fun _ => CGResult.atom 0) = Except.ok (CGResult.atom 0) := by
  refine ⟨rfl, ?_⟩
  have h := (single_kernel_precondition_iff kernelA [] targetA true
    (fun _ => CGResult.atom 0)).2 rfl
  rw [h]

/-- Counterexample for claim C1: the claim says an UnvectorizableError
raised by func during try_vectorized is always caught and never
propagates, regardless of whether vectorization_info is set; but when
vectorization_info is None the source calls func with no handler
installed, so the error propagates to the caller. -/
theorem C1_counterexample_scalar_state_propagates :
    baseState.vectorization_info = none
    ∧ (baseState.try_vectorized "instruction"
        (fun _ => Except.error (PyExc.unvectorizableError "m"))).2
      = Except.error (PyExc.unvectorizableError "m") :=
  ⟨rfl, rfl⟩

/-- Claim C1 (amended): when vectorization_info is set, an
UnvectorizableError raised by func during the initial vectorized attempt
is caught at the try_vectorized boundary and converted into a
vectorize_failed warning plus the automatic unvectorize fallback; when
vectorization_info is None, or when the error is raised during a per-lane
call made by the unvectorize fallback, it propagates to the caller. -/
theorem try_vectorized_catches_initial_unvectorizable
    (s : CodeGenerationState) (what : String)
    (func : CodeGenerationState → Except PyExc Generated)
    (vinf : VectorizationInfo) (m : String)
    (hv : s.vectorization_info = some vinf)
    (hf : func s = Except.error (PyExc.unvectorizableError m)) :
    s.try_vectorized what func
      = ([vectorizeFailedWarning what m],
          (s.unvectorize func).map TryVecOut.fallback) := by
  unfold CodeGenerationState.try_vectorized
  rw [hv, hf]

/-- Witness for claim C1 (amended): a concrete vectorized state whose
emission function raises UnvectorizableError gets the warning and the
fallback. -/
theorem try_vectorized_catches_initial_unvectorizable_witness :
    vecState.vectorization_info = some ⟨"i", 2⟩
    ∧ vecState.try_vectorized "insn"
        (fun _ => Except.error (PyExc.unvectorizableError "nope"))
      = ([vectorizeFailedWarning "insn" "nope"],
          (vecState.unvectorize
            (fun _ => Except.error (PyExc.unvectorizableError "nope"))).map
            TryVecOut.fallback) :=
  ⟨rfl, try_vectorized_catches_initial_unvectorizable vecState "insn"
    (fun _ => Except.error (PyExc.unvectorizableError "nope"))
    ⟨"i", 2⟩ "nope" rfl rfl⟩

/-- Claim C2: for every state whose vectorization_info is some
{iname, length} and every emission function func that returns normally on
every lane, unvectorize calls func once per lane index i in 0, ...,
length-1 in increasing order, each time on the context derived from the
original by clearing vectorization_info and applying fix(iname,
constant i); lane results that are None are dropped, list results
contribute all their elements, and the retained fragments are merged in
lane order into one combined emission result. -/
theorem unvectorize_unrolls_lanes (s : CodeGenerationState)
    (func : CodeGenerationState → Except PyExc Generated)
    (vinf : VectorizationInfo) (g : Nat → Generated)
    (hv : s.vectorization_info = some vinf)
    (hlanes : ∀ i, i < vinf.length →
      func (({ s with vectorization_info := none } :
          CodeGenerationState).fix vinf.iname ⟨(i : Int)⟩)
        = Except.ok (g i)) :
    s.unvectorize func
      = Except.ok (mergeCodegenResults s
          (((List.range vinf.length).map
            (fun i => retainedFragments (g i))).flatten)) := by
  unfold CodeGenerationState.unvectorize
  rw [hv]
  dsimp only
  have hloop := unvectorizeLoop_ok func
    { s with vectorization_info := none } vinf.iname g
    (List.range vinf.length)
    (fun i hi => hlanes i (List.mem_range.mp hi))
  rw [hloop]

/-- Witness for claim C2: a vectorized region of length 2 whose emission
function returns one fragment per lane unrolls into the merged list of
both fragments. -/
theorem unvectorize_unrolls_lanes_witness :
    vecState.vectorization_info = some ⟨"i", 2⟩
    ∧ vecState.unvectorize (fun _ => Except.ok (Generated.one (CGResult.atom 7)))
      = Except.ok (CGResult.mergedOf [CGResult.atom 7, CGResult.atom 7]) := by
  refine ⟨rfl, ?_⟩
  have h := unvectorize_unrolls_lanes vecState
    (fun _ => Except.ok (Generated.one (CGResult.atom 7)))
    ⟨"i", 2⟩ (fun _ => Generated.one (CGResult.atom 7)) rfl
    (fun i _ => rfl)
  rw [h]
  rfl

/-- Claim C3 (code bug): evaluating `diverge_callee_entrypoints` on a unit
in which callable b is both an entrypoint and reachable as a callee
(a calls b; entrypoints are a and b).  The claim — matching the source's
own docstring ("rename the callee") — says the resulting table holds two
bodies, the original name b for the entrypoint role and the fresh name
b_0 for the callee role.  The source instead rebinds the single body to
the fresh name, dropping the key b entirely, so the entrypoint name is
left without a body. -/
theorem diverge_drops_original_entrypoint_entry :
    get_reachable_resolved_callable_ids tunitAB.callables_table
        tunitAB.entrypoints = ["b"]
    ∧ (diverge_callee_entrypoints tunitAB
        (get_reachable_resolved_callable_ids tunitAB.callables_table
          tunitAB.entrypoints) vng0).callables_table
      = [("a", InKernelCallable.callableKernel ⟨"a", ["b_0"]⟩),
         ("b_0", InKernelCallable.callableKernel ⟨"b_0", []⟩)]
    ∧ ((diverge_callee_entrypoints tunitAB
        (get_reachable_resolved_callable_ids tunitAB.callables_table
          tunitAB.entrypoints) vng0).callables_table.lookup "b" = none) := by
  refine ⟨by decide, by decide, by decide⟩

/-- Claim C6: with caching enabled, after one call to generate_code_v2 on
a translation unit, a second call on the same unit value returns the same
result and the same cache without re-running the pipeline body
(preprocessing, linearization, divergence, per-kernel code generation);
and the store-if-not-present write never overwrites an existing cache
entry for any key. -/
theorem generate_code_v2_cache_idempotent
    (body : TranslationUnit → TranslationUnitCodeGenerationResult)
    (cache : Cache) (u : TranslationUnit) :
    (generate_code_v2_cached body
        ((generate_code_v2_cached body cache u).2.1) u
      = ((generate_code_v2_cached body cache u).1,
         (generate_code_v2_cached body cache u).2.1, false))
    ∧ ∀ (r : TranslationUnitCodeGenerationResult) (u' : TranslationUnit)
        (v : TranslationUnitCodeGenerationResult),
        cacheGet cache u' = some v →
        cacheGet (store_if_not_present cache u r) u' = some v := by
  constructor
  · cases hcg : cacheGet cache u with
    | some r =>
        unfold generate_code_v2_cached
        rw [hcg]
        dsimp only
        rw [hcg]
    | none =>
        have hstored : cacheGet (store_if_not_present cache u (body u)) u
            = some (body u) := by
          unfold store_if_not_present
          rw [hcg]
          simp only [Option.isSome_none, Bool.false_eq_true, if_false]
          rw [cacheGet_append_of_none cache [(u, body u)] u hcg]
          simp [cacheGet]
        unfold generate_code_v2_cached
        rw [hcg]
        dsimp only
        rw [hstored]
  · intro r u' v h
    unfold store_if_not_present
    by_cases hp : (cacheGet cache u).isSome
    · rw [if_pos hp]
      exact h
    · rw [if_neg hp]
      exact cacheGet_append_of_some cache [(u, r)] u' v h

/-- Witness for claim C6: a concrete cache holding an entry for one unit
keeps that entry untouched when a result for a different unit is stored
with store-if-not-present semantics. -/
theorem generate_code_v2_cache_idempotent_witness :
    cacheGet [(tunitAB, emptyTUResult)] tunitAB = some emptyTUResult
    ∧ cacheGet (store_if_not_present [(tunitAB, emptyTUResult)] tunitEmpty
        otherTUResult) tunitAB = some emptyTUResult :=
  ⟨rfl, (generate_code_v2_cache_idempotent (fun _ => otherTUResult)
    [(tunitAB, emptyTUResult)] tunitEmpty).2 otherTUResult tunitAB
    emptyTUResult rfl⟩

/-- Claim C7: the orchestrator invokes the single-kernel driver on the
kernel callables in sorted-id order, independent of the iteration order
of the callables table (permuting the table leaves the order unchanged);
for callables named b, a, c, all non-entrypoints, the callee forward
declarations are collected in the order a, b, c; and a collection that
succeeds certifies that every non-entrypoint callable produced exactly
one device program (anything else is an assertion failure). -/
theorem generate_code_v2_sorted_order_and_single_device
    (t1 t2 : List (String × InKernelCallable)) (hperm : t1.Perm t2) :
    kernelIdsSorted t1 = kernelIdsSorted t2
    ∧ (collectPrograms [] cgrOfBAC (kernelIdsSorted tableBAC)
        = Except.ok
            { host_programs := []
              device_programs :=
                [⟨"a", Ast.node "fd_a" "body"⟩, ⟨"b", Ast.node "fd_b" "body"⟩,
                 ⟨"c", Ast.node "fd_c" "body"⟩]
              callee_fdecls :=
                [Ast.fdeclNode "fd_a", Ast.fdeclNode "fd_b",
                 Ast.fdeclNode "fd_c"]
              device_preambles := [] })
    ∧ ∀ (entrypoints : List String)
        (cgrOf : String → SingleKernelCGResult)
        (ids : List String) (acc : CollectAcc),
        collectPrograms entrypoints cgrOf ids = Except.ok acc →
        ∀ id ∈ ids, id ∉ entrypoints →
          (cgrOf id).device_programs.length = 1 := by
  refine ⟨kernelIdsSorted_perm_invariant t1 t2 hperm, ?_, ?_⟩
  · have hsort : kernelIdsSorted tableBAC = ["a", "b", "c"] := by
      show List.insertionSort (fun a b : String => a ≤ b) ["b", "a", "c"]
        = ["a", "b", "c"]
      simp [List.insertionSort, List.orderedInsert]
      decide
    rw [hsort]
    rfl
  · intro entrypoints cgrOf ids acc hok id hid hne
    exact collectPrograms_ok_length_one entrypoints cgrOf ids acc hok id
      hid hne

/-- Witness for claim C7: permuting a concrete callables table does not
change the sorted kernel-id order the driver iterates over. -/
theorem generate_code_v2_sorted_order_and_single_device_witness :
    tableBAC.Perm tableABC
    ∧ kernelIdsSorted tableBAC = kernelIdsSorted tableABC :=
  ⟨by decide,
    (generate_code_v2_sorted_order_and_single_device tableBAC tableABC
      (by decide)).1⟩

/-- Claim C8: for every unit-level result and every AST rendering,
all_code returns the concatenation of the rendered preamble text (host
preambles followed by device preambles, de-duplicated and
priority-ordered) followed first by the device program bodies joined in
list order and then by the host program bodies: device programs precede
host programs in the output. -/
theorem all_code_matches_spec_rendering
    (r : TranslationUnitCodeGenerationResult) (strAst : Ast → String) :
    r.all_code strAst = specAllCode r strAst := by
  unfold TranslationUnitCodeGenerationResult.all_code specAllCode
  simp only [String.append_assoc]

/-- Claim C10: past the cache lookup, generate_code_v2 requires at least
one collected device program: the forward-declaration splicing step
unconditionally rewrites the first element of the collected
device-program list, so a translation unit whose callables table holds no
kernel callable fails with an IndexError instead of producing an empty
result — and more generally any collection yielding no device programs
does. -/
theorem generate_code_v2_requires_device_program
    (t_unit : TranslationUnit) (cgrOf : String → SingleKernelCGResult)
    (genPre : InKernelCallable → List (Int × String)) :
    (t_unit.callables_table.filter (fun p => p.2.isKernel) = [] →
      generate_code_v2_assemble t_unit cgrOf genPre
        = Except.error PyExc.indexError)
    ∧ ∀ acc : CollectAcc,
        collectPrograms t_unit.entrypoints cgrOf
            (kernelIdsSorted t_unit.callables_table) = Except.ok acc →
        acc.device_programs = [] →
        generate_code_v2_assemble t_unit cgrOf genPre
          = Except.error PyExc.indexError := by
  constructor
  · intro hnone
    have hids : kernelIdsSorted t_unit.callables_table = [] := by
      unfold kernelIdsSorted
      rw [hnone]
      rfl
    unfold generate_code_v2_assemble
    rw [hids]
    rfl
  · intro acc hok hdev
    unfold generate_code_v2_assemble
    rw [hok]
    dsimp only
    rw [show splice_callee_fdecls acc.device_programs acc.callee_fdecls
        = Except.error PyExc.indexError by rw [hdev]; rfl]

/-- Witness for claim C10: a concrete translation unit with an empty
callables table fails with IndexError. -/
theorem generate_code_v2_requires_device_program_witness :
    tunitEmpty.callables_table.filter (fun p => p.2.isKernel) = []
    ∧ generate_code_v2_assemble tunitEmpty cgrOfBAC (fun _ => [])
      = Except.error PyExc.indexError :=
  ⟨rfl, (generate_code_v2_requires_device_program tunitEmpty cgrOfBAC
    (fun _ => [])).1 rfl⟩

end Loopy
